import Mathlib

/-!
Verification of `luga` (`src/luga/artifacts.py`) against its specification.

Shallow embedding conventions:
* Python strings are `List Char`; a classifier label tuple such as
  `('__label__da',)` is a `List (List Char)` and indexing `language[0]` is
  modelled with `headD []` (the classifier always supplies one label).
* Confidence scores (numpy float64 scalars, extracted in the code by
  `score_.squeeze().item()`) are modelled as rationals `ℚ`; only order
  comparisons are performed on them.
* `str.replace("__label__", "")` removes every non-overlapping occurrence
  left to right; it is modelled by `stripAux`, a fuel-indexed structural
  recursion (fuel = length of the string, which bounds the number of steps).
* The filesystem and network effects of `model_loader` / `model_deleter`
  are modelled by an explicit state `FSState` plus a fetch oracle
  `FetchOutcome`; the loader reports the new state, the number of HTTP GETs
  performed, and whether an exception propagated.
* `beautify_many` can read the local variable `results` before assignment
  (it is only assigned under `only_language` / `to_array`); that raises
  `UnboundLocalError` in Python, modelled by `Except.error`.
-/

namespace Luga

/-- The fixed classifier label marker `"__label__"` (9 characters). -/
def labelTag : List Char := ['_', '_', 'l', 'a', 'b', 'e', 'l', '_', '_']

/-- The sentinel language name `"unknown"`. -/
def unknownName : List Char := ['u', 'n', 'k', 'n', 'o', 'w', 'n']

/-- `stripAux fuel s` removes every non-overlapping occurrence of
`labelTag` from `s`, scanning left to right, exactly as Python's
`s.replace("__label__", "")` does.  On a match the head character and the
next 8 are skipped (9 = length of the tag).  One unit of fuel is spent per
step and every step consumes at least one character, so `fuel = s.length`
suffices. -/
def stripAux : Nat → List Char → List Char
  | 0, s => s
  | _ + 1, [] => []
  | fuel + 1, c :: cs =>
      if labelTag.isPrefixOf (c :: cs) then stripAux fuel (cs.drop 8)
      else c :: stripAux fuel cs

/-- `language[0].replace("__label__", "")` from `beautify_one` /
`beautify_many` (lines 85 and 108 of `artifacts.py`). -/
def stripLabel (s : List Char) : List Char := stripAux s.length s

/-- `true` iff `s` contains an occurrence of `labelTag` as a contiguous
substring. -/
def containsTag : List Char → Bool
  | [] => false
  | c :: cs => labelTag.isPrefixOf (c :: cs) || containsTag cs

/-- The `Language` dataclass (lines 56-61): `Language()` is the sentinel
`("unknown", 0.0)`. -/
structure Language where
  name : List Char := unknownName
  score : ℚ := 0
  deriving DecidableEq, Repr

/-- `beautify_one` (lines 73-85).  `response` is the pair
`(language, score_)`; `score = score_.squeeze().item()` is the scalar
confidence, already extracted in our model. -/
def beautify_one (response : List (List Char) × ℚ) (threshold : ℚ) : Language :=
  if response.2 < threshold then { }
  else { name := stripLabel (response.1.headD []), score := response.2 }

/-- The accumulation loop of `beautify_many` (lines 98-109): `zip` pairs
the label and confidence sequences positionally (and, as in Python,
silently stops at the shorter one), and each pair is mapped through the
same threshold test as `beautify_one`. -/
def beautify_many_results (languages : List (List (List Char))) (scores : List ℚ)
    (threshold : ℚ) : List Language :=
  (languages.zip scores).map fun ls =>
    if ls.2 < threshold then { }
    else { name := stripLabel (ls.1.headD []), score := ls.2 }

/-- The possible values of the `results` variable that `beautify_many`
returns: a list of `Language` values (the documented default), a list of
language-name strings, or a numpy array of those strings. -/
inductive BatchOutput where
  | ofLanguageList : List Language → BatchOutput
  | ofNameList : List (List Char) → BatchOutput
  | ofNameArray : Array (List Char) → BatchOutput
  deriving DecidableEq, Repr

/-- The Python error raised by reading a local variable before assignment. -/
def unboundLocalError : String := "UnboundLocalError"

/-- `beautify_many` (lines 88-117).  The local `results` is assigned only
inside the `if only_language:` branch; the `if to_array:` branch and the
final `return results` read it, so every path with `only_language = false`
raises `UnboundLocalError`. -/
def beautify_many (responses : List (List (List Char)) × List ℚ) (threshold : ℚ)
    (only_language : Bool) (to_array : Bool) : Except String BatchOutput :=
  let results_ := beautify_many_results responses.1 responses.2 threshold
  if only_language then
    let results := results_.map Language.name
    if to_array then Except.ok (BatchOutput.ofNameArray results.toArray)
    else Except.ok (BatchOutput.ofNameList results)
  else
    if to_array then Except.error unboundLocalError
    else Except.error unboundLocalError

/-- Filesystem state relevant to the artifact lifecycle: the cached model
file (`none` = absent, `some bytes` = present with those contents) and
whether the models directory exists. -/
structure FSState where
  modelFile : Option (List Nat)
  dirExists : Bool
  deriving DecidableEq, Repr

/-- Outcome of the blocking `client.get(model_url)`: the full body, or an
exception (timeout / transport error). -/
inductive FetchOutcome where
  | success : List Nat → FetchOutcome
  | failure : FetchOutcome
  deriving DecidableEq, Repr

/-- Result of one `model_loader` invocation: final filesystem state, how
many HTTP GETs were performed, and whether an exception propagated. -/
structure LoaderResult where
  fs : FSState
  fetches : Nat
  raised : Bool
  deriving DecidableEq, Repr

/-- `model_loader` (lines 15-34).  Mirrors the statement order of the
source: the existence test, `mkdir(exist_ok=True)`, then
`__MODEL_FILE.open("wb")` — which creates/truncates the file *before* any
byte arrives — then the GET; on success the body is written, on failure
the exception propagates with the (empty) file already on disk. -/
def model_loader (fs : FSState) (fetch : FetchOutcome) (re_download : Bool) :
    LoaderResult :=
  if fs.modelFile.isNone || re_download then
    let fs1 : FSState := { fs with dirExists := true }
    let fs2 : FSState := { fs1 with modelFile := some [] }
    match fetch with
    | FetchOutcome.success body =>
        { fs := { fs2 with modelFile := some body }, fetches := 1, raised := false }
    | FetchOutcome.failure =>
        { fs := fs2, fetches := 1, raised := true }
  else
    { fs := fs, fetches := 0, raised := false }

/-- `model_deleter` (lines 38-53): returns `false` if the file is absent,
otherwise unlinks it and returns `true`. -/
def model_deleter (fs : FSState) : FSState × Bool :=
  if fs.modelFile.isNone then (fs, false)
  else ({ fs with modelFile := none }, true)

end Luga

namespace Luga

lemma stripAux_fuel (f₁ : Nat) : ∀ (f₂ : Nat) (s : List Char), s.length ≤ f₁ → s.length ≤ f₂ →
    stripAux f₁ s = stripAux f₂ s := by
  induction f₁ with
  | zero =>
    intro f₂ s h₁ h₂
    have hs : s = [] := List.length_eq_zero.mp (Nat.le_zero.mp h₁)
    subst hs
    cases f₂ <;> rfl
  | succ f ih =>
    intro f₂ s h₁ h₂
    cases s with
    | nil => cases f₂ <;> rfl
    | cons c cs =>
      simp only [List.length_cons] at h₁ h₂
      cases f₂ with
      | zero => omega
      | succ g =>
        simp only [stripAux]
        cases hp : labelTag.isPrefixOf (c :: cs) with
        | true =>
          simp only [hp, if_true]
          exact ih g (cs.drop 8) (by simp [List.length_drop]; omega)
            (by simp [List.length_drop]; omega)
        | false =>
          simp only [hp, Bool.false_eq_true, if_false]
          exact congrArg (List.cons c) (ih g cs (by omega) (by omega))

lemma stripAux_no_tag (f : Nat) : ∀ s : List Char, containsTag s = false → s.length ≤ f →
    stripAux f s = s := by
  induction f with
  | zero =>
    intro s h hf
    cases s <;> rfl
  | succ f ih =>
    intro s h hf
    cases s with
    | nil => rfl
    | cons c cs =>
      simp only [containsTag, Bool.or_eq_false_iff] at h
      obtain ⟨hp, hc⟩ := h
      simp only [stripAux, hp, Bool.false_eq_true, if_false]
      simp only [List.length_cons] at hf
      exact congrArg (List.cons c) (ih cs hc (by omega))

lemma stripLabel_no_tag (s : List Char) (h : containsTag s = false) : stripLabel s = s :=
  stripAux_no_tag s.length s h (Nat.le_refl _)

lemma labelTag_isPrefixOf_append (s : List Char) : labelTag.isPrefixOf (labelTag ++ s) = true :=
  List.isPrefixOf_iff_prefix.mpr (List.prefix_append _ _)

lemma stripLabel_tag_append (s : List Char) : stripLabel (labelTag ++ s) = stripLabel s := by
  have hcons : labelTag ++ s = '_' :: (['_', 'l', 'a', 'b', 'e', 'l', '_', '_'] ++ s) := rfl
  have hpre : labelTag.isPrefixOf ('_' :: (['_', 'l', 'a', 'b', 'e', 'l', '_', '_'] ++ s)) = true := by
    rw [← hcons]
    exact labelTag_isPrefixOf_append s
  have hdrop : (['_', 'l', 'a', 'b', 'e', 'l', '_', '_'] ++ s).drop 8 = s := by
    exact List.drop_left (['_', 'l', 'a', 'b', 'e', 'l', '_', '_'] : List Char) s
  have hlen : (labelTag ++ s).length = s.length + 8 + 1 := by
    simp only [labelTag, List.length_append, List.length_cons, List.length_nil]
    omega
  unfold stripLabel
  rw [hlen, hcons]
  simp only [stripAux, hpre, if_true]
  rw [hdrop]
  exact stripAux_fuel (s.length + 8) s.length s (by omega) (Nat.le_refl _)

lemma stripLabel_wellformed (code : List Char) (h : containsTag code = false) :
    stripLabel (labelTag ++ code) = code := by
  rw [stripLabel_tag_append]
  exact stripLabel_no_tag code h

lemma beautify_many_results_nil (s : List ℚ) (t : ℚ) :
    beautify_many_results [] s t = [] := rfl

lemma beautify_many_results_cons (a : List (List Char)) (l : List (List (List Char)))
    (b : ℚ) (s : List ℚ) (t : ℚ) :
    beautify_many_results (a :: l) (b :: s) t =
      beautify_one (a, b) t :: beautify_many_results l s t := rfl

lemma beautify_many_results_length (l : List (List (List Char))) (s : List ℚ) (t : ℚ) :
    (beautify_many_results l s t).length = min l.length s.length := by
  simp [beautify_many_results]

lemma beautify_many_results_get (l : List (List (List Char))) :
    ∀ (s : List ℚ) (t : ℚ) (i : Nat) (lab : List (List Char)) (sc : ℚ),
      l[i]? = some lab → s[i]? = some sc →
      (beautify_many_results l s t)[i]? = some (beautify_one (lab, sc) t) := by
  induction l with
  | nil =>
    intro s t i lab sc h hs
    simp at h
  | cons a l ih =>
    intro s t i lab sc h hs
    cases s with
    | nil => simp at hs
    | cons b s =>
      cases i with
      | zero =>
        simp only [List.getElem?_cons_zero, Option.some.injEq] at h hs
        subst h
        subst hs
        rw [beautify_many_results_cons]
        simp
      | succ n =>
        simp only [List.getElem?_cons_succ] at h hs
        rw [beautify_many_results_cons]
        simp only [List.getElem?_cons_succ]
        exact ih s t n lab sc h hs

end Luga

namespace Luga

/-- C1: with `only_language = false` and `to_array = false`, `beautify_many`
does not return the list of `Language` values: the local `results` is never
assigned on this path, so the call raises `UnboundLocalError` (for every
input, equal-length or not, and every threshold). -/
theorem beautify_many_default_raises (l : List (List (List Char))) (s : List ℚ) (t : ℚ) :
    beautify_many (l, s) t false false = Except.error unboundLocalError := rfl

/-- C2 counterexample: for the accepted label `"__label____lab__label__el__"`
(confidence 1 ≥ threshold 0) the code removes every occurrence of
`"__label__"` (Python `str.replace`), splicing a fresh occurrence together:
the returned name is `"__label__"` itself, which differs from the label with
the leading prefix stripped (`"__lab__label__el__"`) and still contains the
prefix. -/
theorem beautify_one_strip_counterexample :
    (beautify_one ([("__label____lab__label__el__".toList)], (1 : ℚ)) 0).name ≠
        ("__lab__label__el__".toList) ∧
    containsTag ((beautify_one ([("__label____lab__label__el__".toList)], (1 : ℚ)) 0).name) =
      true := by
  decide

/-- C2 (amended): for well-formed labels, i.e. `"__label__" ++ code` where
`code` contains no occurrence of the prefix and is not itself `"unknown"`,
`beautify_one` returns the sentinel iff `c < t`; otherwise (including
`c = t`) it returns `score = c` and `name = code`, and the name contains no
occurrence of the prefix. -/
theorem beautify_one_spec (code : List Char) (c t : ℚ)
    (hcode : containsTag code = false) (hunk : code ≠ unknownName) :
    (beautify_one ([labelTag ++ code], c) t = { name := unknownName, score := 0 } ↔ c < t) ∧
    (¬ c < t →
      (beautify_one ([labelTag ++ code], c) t).score = c ∧
      (beautify_one ([labelTag ++ code], c) t).name = code ∧
      containsTag ((beautify_one ([labelTag ++ code], c) t).name) = false) := by
  have hval : ¬ c < t → beautify_one ([labelTag ++ code], c) t = { name := code, score := c } := by
    intro h
    simp only [beautify_one, List.headD_cons, if_neg h]
    rw [stripLabel_wellformed code hcode]
  have hpos : c < t → beautify_one ([labelTag ++ code], c) t = { name := unknownName, score := 0 } := by
    intro h
    simp only [beautify_one, if_pos h]
  constructor
  · constructor
    · intro he
      by_contra h
      rw [hval h] at he
      exact hunk (congrArg Language.name he)
    · exact hpos
  · intro h
    rw [hval h]
    exact ⟨rfl, rfl, hcode⟩

/-- Witness for C2: the code `"da"` is well-formed, and at confidence 0
below threshold 1 the sentinel is returned. -/
theorem beautify_one_spec_witness :
    beautify_one ([labelTag ++ ("da".toList)], (0 : ℚ)) 1 = { name := unknownName, score := 0 } :=
  (beautify_one_spec ("da".toList) 0 1 (by decide) (by decide)).1.mpr (by decide)

/-- C3: `model_loader` is not atomic.  Starting from an absent artifact, a
failed transfer propagates the exception but leaves an empty file on disk
(`open("wb")` runs before the GET), and the next invocation sees the file
as present and performs no fetch; on success the full body is stored. -/
theorem model_loader_not_atomic :
    (model_loader ⟨none, false⟩ FetchOutcome.failure false).raised = true ∧
    (model_loader ⟨none, false⟩ FetchOutcome.failure false).fs.modelFile = some [] ∧
    (model_loader (model_loader ⟨none, false⟩ FetchOutcome.failure false).fs
        FetchOutcome.failure false).fetches = 0 ∧
    (model_loader ⟨none, false⟩ (FetchOutcome.success [1, 2, 3]) false).fs.modelFile =
      some [1, 2, 3] := by
  decide

/-- C4: the two output flags are not independent.  `to_array = true` with
`only_language = false` reads the unassigned `results` and raises
`UnboundLocalError`; only the combination with `only_language = true`
returns an array, and it holds the name strings. -/
theorem beautify_many_to_array_flags (l : List (List (List Char))) (s : List ℚ) (t : ℚ) :
    beautify_many (l, s) t false true = Except.error unboundLocalError ∧
    beautify_many (l, s) t true true =
      Except.ok (BatchOutput.ofNameArray
        (((beautify_many_results l s t).map Language.name).toArray)) :=
  ⟨rfl, rfl⟩

/-- C5: for equal-length inputs the result sequence built by
`beautify_many` has one element per input pair, in input order, and its
`i`-th element is `beautify_one` applied to the `i`-th pair with the same
threshold. -/
theorem beautify_many_ordered_elementwise (l : List (List (List Char))) (s : List ℚ) (t : ℚ)
    (h : l.length = s.length) :
    (beautify_many_results l s t).length = l.length ∧
    ∀ (i : Nat) (lab : List (List Char)) (sc : ℚ), l[i]? = some lab → s[i]? = some sc →
      (beautify_many_results l s t)[i]? = some (beautify_one (lab, sc) t) := by
  refine ⟨?_, ?_⟩
  · rw [beautify_many_results_length, h, Nat.min_self]
  · intro i lab sc hl hs
    exact beautify_many_results_get l s t i lab sc hl hs

/-- Witness for C5 at a concrete two-element batch. -/
theorem beautify_many_ordered_elementwise_witness :
    (beautify_many_results [[("__label__da".toList)], [("__label__en".toList)]]
        [(1 : ℚ), (0 : ℚ)] 1)[1]? =
      some (beautify_one ([("__label__en".toList)], (0 : ℚ)) 1) :=
  (beautify_many_ordered_elementwise [[("__label__da".toList)], [("__label__en".toList)]]
      [(1 : ℚ), (0 : ℚ)] 1 rfl).2 1 [("__label__en".toList)] 0 rfl rfl

/-- C6 counterexample: the classifier label `"__label__unknown"` at
confidence 1 ≥ threshold 0 yields a `Language` whose name is `"unknown"`
although the confidence was not below the threshold, refuting the claimed
iff. -/
theorem beautify_one_invariant_counterexample :
    ¬ (((beautify_one ([("__label__unknown".toList)], (1 : ℚ)) 0).name = unknownName) ↔
        ((1 : ℚ) < 0)) := by
  decide

/-- C6 (amended): for every prediction whose stripped label is not itself
`"unknown"`, the produced value has `name = "unknown"` iff the confidence
is below the threshold, and below the threshold the result is exactly the
sentinel with score 0. -/
theorem beautify_one_invariant (label : List Char) (c t : ℚ)
    (h : stripLabel label ≠ unknownName) :
    ((beautify_one ([label], c) t).name = unknownName ↔ c < t) ∧
    (c < t → beautify_one ([label], c) t = { name := unknownName, score := 0 }) := by
  have hpos : c < t → beautify_one ([label], c) t = { name := unknownName, score := 0 } := by
    intro hc
    simp only [beautify_one, if_pos hc]
  have hneg : ¬ c < t → (beautify_one ([label], c) t).name = stripLabel label := by
    intro hc
    simp only [beautify_one, List.headD_cons, if_neg hc]
  by_cases hc : c < t
  · refine ⟨?_, hpos⟩
    rw [hpos hc]
    simpa using hc
  · refine ⟨?_, fun hcc => absurd hcc hc⟩
    rw [hneg hc]
    exact iff_of_false h hc

/-- Witness for C6: the label `"__label__da"` strips to `"da"`, and at
confidence 0 below threshold 1 the sentinel is produced. -/
theorem beautify_one_invariant_witness :
    beautify_one ([("__label__da".toList)], (0 : ℚ)) 1 = { name := unknownName, score := 0 } :=
  (beautify_one_invariant ("__label__da".toList) 0 1 (by decide)).2 (by decide)

/-- C7: when the artifact is present and `re_download` is false,
`model_loader` performs zero fetches, raises nothing and leaves the state
unchanged; with `re_download = true` it performs exactly one fetch
regardless of prior state. -/
theorem model_loader_fetch_policy (fs : FSState) (fetch : FetchOutcome) :
    (fs.modelFile.isSome = true →
      model_loader fs fetch false = { fs := fs, fetches := 0, raised := false }) ∧
    (model_loader fs fetch true).fetches = 1 := by
  constructor
  · intro h
    obtain ⟨b, hb⟩ := Option.isSome_iff_exists.mp h
    simp [model_loader, hb]
  · cases fetch <;> simp [model_loader]

/-- Witness for C7 at a concrete present state. -/
theorem model_loader_fetch_policy_witness :
    model_loader ⟨some [7], true⟩ FetchOutcome.failure false =
      { fs := ⟨some [7], true⟩, fetches := 0, raised := false } :=
  (model_loader_fetch_policy ⟨some [7], true⟩ FetchOutcome.failure).1 (by decide)

/-- C8: `model_deleter` returns `true` iff the artifact was present at the
time of the call, never raises when it is absent, and a second consecutive
call always returns `false`. -/
theorem model_deleter_spec (fs : FSState) :
    ((model_deleter fs).2 = true ↔ fs.modelFile.isSome = true) ∧
    (model_deleter (model_deleter fs).1).2 = false := by
  cases hm : fs.modelFile with
  | none => simp [model_deleter, hm]
  | some b => simp [model_deleter, hm]

/-- Witness for C8 at a concrete present state. -/
theorem model_deleter_spec_witness :
    (model_deleter ⟨some [7], true⟩).2 = true ∧
    (model_deleter (model_deleter ⟨some [7], true⟩).1).2 = false :=
  ⟨(model_deleter_spec ⟨some [7], true⟩).1.mpr (by decide),
   (model_deleter_spec ⟨some [7], true⟩).2⟩

/-- C9: with `only_language = true` (and `to_array = false`)
`beautify_many` returns exactly the `name` fields of the per-element
`Language` values it builds, in order; but the reference call with
`only_language = false` that the claim compares against raises
`UnboundLocalError` instead of producing those `Language` values. -/
theorem beautify_many_name_projection (l : List (List (List Char))) (s : List ℚ) (t : ℚ) :
    beautify_many (l, s) t true false =
      Except.ok (BatchOutput.ofNameList ((beautify_many_results l s t).map Language.name)) ∧
    beautify_many (l, s) t false false = Except.error unboundLocalError :=
  ⟨rfl, rfl⟩

/-- C10: for label and confidence sequences of unequal length the pairing
loop of `beautify_many` raises nothing: `zip` silently truncates to the
shorter sequence, producing exactly `min` many results, elementwise equal
to `beautify_one`, with nothing beyond that length. -/
theorem beautify_many_truncation (l : List (List (List Char))) (s : List ℚ) (t : ℚ) :
    (beautify_many_results l s t).length = min l.length s.length ∧
    (∀ (i : Nat) (lab : List (List Char)) (sc : ℚ), l[i]? = some lab → s[i]? = some sc →
      (beautify_many_results l s t)[i]? = some (beautify_one (lab, sc) t)) ∧
    (∀ i : Nat, min l.length s.length ≤ i → (beautify_many_results l s t)[i]? = none) := by
  refine ⟨beautify_many_results_length l s t, ?_, ?_⟩
  · intro i lab sc hl hs
    exact beautify_many_results_get l s t i lab sc hl hs
  · intro i hi
    apply List.getElem?_eq_none
    rw [beautify_many_results_length]
    exact hi

/-- Witness for C10: two labels against one confidence produce exactly one
result and nothing at index 1. -/
theorem beautify_many_truncation_witness :
    (beautify_many_results [[("__label__da".toList)], [("__label__en".toList)]]
        [(1 : ℚ)] 0).length = 1 ∧
    (beautify_many_results [[("__label__da".toList)], [("__label__en".toList)]]
        [(1 : ℚ)] 0)[1]? = none :=
  ⟨(beautify_many_truncation [[("__label__da".toList)], [("__label__en".toList)]]
      [(1 : ℚ)] 0).1.trans (by decide),
   (beautify_many_truncation [[("__label__da".toList)], [("__label__en".toList)]]
      [(1 : ℚ)] 0).2.2 1 (by decide)⟩

end Luga
